import Mathlib

/-!
Shallow embedding of the resilient HTTP request core of the Chaindoc
server SDK (`src/client.ts`, with the configuration types of
`src/types/index.ts`).  JavaScript values that can appear in a decoded
JSON body are modelled by `JsonValue`; `undefined` is modelled by `none`
in an `Option`.  The transport collaborator (`fetch`) is modelled as a
function from the 0-based attempt index to the outcome of that attempt,
and `Math.random()` as a function from the attempt index to a rational
in `[0, 1)`.
-/

namespace ChaindocSdk

/-- A decoded JSON value, as produced by `response.json()`. -/
inductive JsonValue where
  | null
  | bool (b : Bool)
  | num (n : Int)
  | str (s : String)
  | arr (elems : List JsonValue)
  | obj (fields : List (String × JsonValue))

/-- Field lookup in a JSON object literal (first binding wins, as for
objects produced by `JSON.parse`, whose keys are unique). -/
def lookupField : List (String × JsonValue) → String → Option JsonValue
  | [], _ => none
  | (k, v) :: rest, key => if k == key then some v else lookupField rest key

/-- The JS test and selection `data && typeof data === "object" &&
"message" in data && typeof data.message === "string" ? data.message :
<absent>` (client.ts lines 154-159).  Only a JSON object can satisfy the JS test: `null` is
falsy, primitives fail `typeof data === "object"`, and a JSON array has
no `message` property. -/
def bodyMessage : JsonValue → Option String
  | JsonValue.obj fields =>
    match lookupField fields "message" with
    | some (JsonValue.str s) => some s
    | _ => none
  | _ => none

/-- JavaScript truthiness of a decoded JSON value (`NaN` cannot arise
since numbers are modelled as integers). -/
def jsTruthy : JsonValue → Bool
  | JsonValue.null => false
  | JsonValue.bool b => b
  | JsonValue.num n => n != 0
  | JsonValue.str s => s != ""
  | JsonValue.arr _ => true
  | JsonValue.obj _ => true

/-- JavaScript truthiness of a possibly-`undefined` value. -/
def jsTruthyOpt : Option JsonValue → Bool
  | none => false
  | some v => jsTruthy v

/-- Does the character list `l` start with `pat`? -/
def startsWithList : List Char → List Char → Bool
  | _, [] => true
  | [], _ :: _ => false
  | c :: cs, p :: ps => c == p && startsWithList cs ps

/-- Does the character list contain `pat` as a contiguous sublist? -/
def containsSubList (pat : List Char) : List Char → Bool
  | [] => pat.isEmpty
  | c :: cs => startsWithList (c :: cs) pat || containsSubList pat cs

/-- JavaScript `s.includes(pat)`. -/
def containsSubstr (s pat : String) : Bool :=
  containsSubList pat.data s.data

/-- JavaScript `s.startsWith(pat)`. -/
def strStartsWith (s pat : String) : Bool :=
  startsWithList s.data pat.data

/-- Truthiness of a possibly-`undefined` JavaScript string. -/
def strTruthy : Option String → Bool
  | none => false
  | some s => s != ""

/-- The `ChaindocError` class (client.ts lines 8-18): `response` holds
the decoded body when one was parsed. -/
structure ChaindocError where
  message : String
  statusCode : Option Nat
  response : Option JsonValue
  isRetryable : Bool

/-- A value thrown by the transport (`fetch`) or by the body decoding
machinery: either a JavaScript `Error` with a `name` and a `message`
(`name = "AbortError"` for the timeout-abort signal), or some non-`Error`
value. -/
inductive TransportError where
  | jsError (name : String) (message : String)
  | nonError

/-- The transient network failure codes (client.ts lines 92-98). -/
def networkErrors : List String :=
  ["ECONNRESET", "ECONNREFUSED", "ETIMEDOUT", "ENOTFOUND", "EAI_AGAIN"]

/-- Lines 81-105 of client.ts, `isRetryableError(error, statusCode?)`.
The test `statusCode && statusCode >= 500` checks JS truthiness of the
status first. -/
def isRetryableError (error : Option TransportError) (statusCode : Option Nat) : Bool :=
  if (match statusCode with
      | some s => (s != 0) && decide (500 ≤ s)
      | none => false) then
    true
  else if statusCode == some 429 then
    true
  else
    match error with
    | some (TransportError.jsError name msg) =>
        networkErrors.any (fun e => containsSubstr msg e) || name == "AbortError"
    | _ => false

/-- One HTTP response as observed through the `fetch` `Response` object:
the status, the `content-length` and `content-type` headers, and the
result of `response.json()` (`none` when parsing throws, in which case
the `.catch(() => undefined)` of client.ts line 150 yields `undefined`). -/
structure HttpResponse where
  status : Nat
  contentLength : Option String
  contentType : Option String
  jsonBody : Option JsonValue

/-- The outcome of one `fetch` call: a response, or a thrown value. -/
inductive FetchResult where
  | response (r : HttpResponse)
  | thrown (e : TransportError)

/-- Line 149 of client.ts: `contentType?.includes("application/json")`. -/
def isJsonContentType (ct : Option String) : Bool :=
  match ct with
  | some s => containsSubstr s "application/json"
  | none => false

/-- The `data` value of client.ts lines 149-151: the parsed JSON body
when the content type indicates JSON, else `undefined`. -/
def decodedData (r : HttpResponse) : Option JsonValue :=
  if isJsonContentType r.contentType then r.jsonBody else none

/-- Fetch `response.ok`: status in the inclusive range 200-299. -/
def responseOk (status : Nat) : Bool :=
  decide (200 ≤ status) && decide (status ≤ 299)

/-- The message of a non-2xx error (client.ts lines 154-160). -/
def errorMessageOf (data : Option JsonValue) (generic : String) : String :=
  match data with
  | some d =>
    match bodyMessage d with
    | some m => m
    | none => generic
  | none => generic

/-- The resolution of one attempt's `try` block before loop control:
either the function returns a (possibly absent) decoded value, or an
error is produced and handed to the retry decision. -/
inductive AttemptResult where
  | success (value : Option JsonValue)
  | failed (e : ChaindocError)

/-- Lines 139-177 of client.ts: processing of a `fetch` response on the
JSON request path.  The empty-body check (status 204 or
`content-length: "0"`) runs before the `response.ok` check. -/
def handleResponse (r : HttpResponse) : AttemptResult :=
  if r.status == 204 || r.contentLength == some "0" then
    AttemptResult.success none
  else
    let data := decodedData r
    if !responseOk r.status then
      AttemptResult.failed
        { message := errorMessageOf data ("Request failed with status " ++ toString r.status)
          statusCode := some r.status
          response := data
          isRetryable := isRetryableError none (some r.status) }
    else
      AttemptResult.success data

/-- Lines 178-209 of client.ts: the `catch` block of the JSON request
path, classifying a thrown value. -/
def handleThrown (e : TransportError) : AttemptResult :=
  match e with
  | TransportError.jsError name msg =>
      AttemptResult.failed
        { message := if name == "AbortError" then "Request timeout" else msg
          statusCode := none
          response := none
          isRetryable := isRetryableError (some e) none }
  | TransportError.nonError =>
      AttemptResult.failed
        { message := "Unknown error occurred"
          statusCode := none
          response := none
          isRetryable := false }

/-- The resolution of one attempt of `HttpClient.request` given the
outcome of its `fetch` call. -/
def classifyFetch : FetchResult → AttemptResult
  | FetchResult.response r => handleResponse r
  | FetchResult.thrown e => handleThrown e

/-- The resolved retry policy `Required<RetryConfig>` held by the
client (client.ts lines 59-63).  Delays are JS numbers, modelled as
rationals. -/
structure RetryConfig where
  maxRetries : Nat
  baseDelayMs : ℚ
  maxDelayMs : ℚ

/-- JavaScript `Math.round`: rounds half toward positive infinity. -/
def jsRound (x : ℚ) : ℤ := ⌊x + 1 / 2⌋

/-- Lines 69-76 of client.ts, `getRetryDelay(attempt)`, with the value
of `Math.random()` passed explicitly as `rand ∈ [0, 1)`. -/
def getRetryDelay (baseDelayMs maxDelayMs : ℚ) (attempt : Nat) (rand : ℚ) : ℤ :=
  let exponentialDelay := baseDelayMs * 2 ^ attempt
  let cappedDelay := min exponentialDelay maxDelayMs
  let jitter := cappedDelay * (1 / 4) * (rand * 2 - 1)
  jsRound (cappedDelay + jitter)

/-- The observable outcome of one `HttpClient.request` call: how many
attempts ran, which backoff delays were slept (in order), and the value
returned or the error thrown. -/
structure RunResult where
  attempts : Nat
  sleeps : List ℤ
  outcome : Except ChaindocError (Option JsonValue)

/-- The `for` loop of `HttpClient.request` (client.ts lines 119-213),
as a recursion on the number of loop iterations left
(`remaining = maxAttempts - attempt`).  `sleeps` accumulates the slept
delays in reverse; `lastError` is the `lastError` variable.  Since
`maxAttempts ≥ 1` at both call sites, the JS guard
`attempt < maxAttempts - 1` is written `attempt + 1 < maxAttempts`. -/
def runFrom (transport : Nat → FetchResult) (rand : Nat → ℚ)
    (baseDelayMs maxDelayMs : ℚ) (maxAttempts : Nat) :
    Nat → Nat → List ℤ → Option ChaindocError → RunResult
  | attempt, 0, sleeps, lastError =>
      { attempts := attempt
        sleeps := sleeps.reverse
        outcome := Except.error (lastError.getD
          { message := "Request failed after retries", statusCode := none
            response := none, isRetryable := false }) }
  | attempt, remaining + 1, sleeps, _lastError =>
      match classifyFetch (transport attempt) with
      | AttemptResult.success v =>
          { attempts := attempt + 1, sleeps := sleeps.reverse, outcome := Except.ok v }
      | AttemptResult.failed e =>
          if e.isRetryable && decide (attempt + 1 < maxAttempts) then
            runFrom transport rand baseDelayMs maxDelayMs maxAttempts
              (attempt + 1) remaining
              (getRetryDelay baseDelayMs maxDelayMs attempt (rand attempt) :: sleeps)
              (some e)
          else
            { attempts := attempt + 1, sleeps := sleeps.reverse, outcome := Except.error e }

/-- Method `HttpClient.request` (client.ts lines 114-214), given the client's
resolved retry policy, the per-call `noRetry` flag, and the transport
and random-source environments. -/
def requestRun (retry : RetryConfig) (noRetry : Bool)
    (transport : Nat → FetchResult) (rand : Nat → ℚ) : RunResult :=
  let maxAttempts := if noRetry then 1 else retry.maxRetries + 1
  runFrom transport rand retry.baseDelayMs retry.maxDelayMs maxAttempts 0 maxAttempts [] none

/-- Line 133 of client.ts, `options.body ? JSON.stringify(options.body)
: undefined`: the `body` argument handed to `fetch`, with
serialization left to the external JSON encoder (the attached value is
recorded instead of its encoding). -/
def requestSentBody (body : Option JsonValue) : Option JsonValue :=
  if jsTruthyOpt body then body else none

/-- The API environments of `src/types/index.ts` line 32. -/
inductive ChaindocEnvironment where
  | production
  | staging
  | development
deriving DecidableEq

/-- The optional retry overrides of `RetryConfig`
(`src/types/index.ts` lines 9-27). -/
structure RetryConfigInput where
  maxRetries : Option Nat
  baseDelayMs : Option ℚ
  maxDelayMs : Option ℚ

/-- Structure `ChaindocConfig` (`src/types/index.ts` lines 34-66).  `secretKey`
is a required `string` in the type, but the constructor also guards the
runtime values `undefined` and `""`, so it is modelled as optional.
The interface has an `environment` field and no `baseUrl` field. -/
structure ChaindocConfig where
  secretKey : Option String
  environment : Option ChaindocEnvironment
  timeout : Option Nat
  headers : List (String × String)
  retry : Option RetryConfigInput

def DEFAULT_BASE_URL : String := "https://api.chaindoc.io"

def DEFAULT_TIMEOUT : Nat := 30000

def DEFAULT_MAX_RETRIES : Nat := 3

def DEFAULT_BASE_DELAY_MS : ℚ := 1000

def DEFAULT_MAX_DELAY_MS : ℚ := 10000

/-- Drop a single trailing slash, as `.replace(/\/$/, "")` does. -/
def stripTrailingSlash (s : String) : String :=
  if s.data.getLast? == some '/' then String.mk s.data.dropLast else s

/-- JS object spread `{ ...base, ...overrides }` on string-valued
records: keys of `base` keep their position but take the overriding
value; new keys of `overrides` follow. -/
def mergeHeaders (base overrides : List (String × String)) :
    List (String × String) :=
  base.map (fun kv =>
    match overrides.find? (fun kv2 => kv2.1 == kv.1) with
    | some kv2 => (kv.1, kv2.2)
    | none => kv)
  ++ overrides.filter (fun kv2 => base.all (fun kv => kv.1 != kv2.1))

/-- The state held by a constructed `HttpClient` (client.ts lines
35-40). -/
structure HttpClient where
  baseUrl : String
  secretKey : String
  timeout : Nat
  defaultHeaders : List (String × String)
  retryConfig : RetryConfig

/-- The `HttpClient` constructor (client.ts lines 42-64).  Line 51
reads `config.baseUrl`, a property that does not exist on
`ChaindocConfig` (which carries `environment` instead), so at runtime
that read yields `undefined` and the production default is always
used. -/
def mkHttpClient (config : ChaindocConfig) : Except ChaindocError HttpClient :=
  if !strTruthy config.secretKey then
    Except.error
      { message := "secretKey is required", statusCode := none
        response := none, isRetryable := false }
  else
    let key := config.secretKey.getD ""
    if !strStartsWith key "sk_" then
      Except.error
        { message := "secretKey must start with \"sk_\"", statusCode := none
          response := none, isRetryable := false }
    else
      Except.ok
        { baseUrl := stripTrailingSlash DEFAULT_BASE_URL
          secretKey := key
          timeout := config.timeout.getD DEFAULT_TIMEOUT
          defaultHeaders := mergeHeaders
            [("Content-Type", "application/json"), ("Authorization", "Bearer " ++ key)]
            config.headers
          retryConfig :=
            { maxRetries := ((config.retry.map (·.maxRetries)).join).getD DEFAULT_MAX_RETRIES
              baseDelayMs := ((config.retry.map (·.baseDelayMs)).join).getD DEFAULT_BASE_DELAY_MS
              maxDelayMs := ((config.retry.map (·.maxDelayMs)).join).getD DEFAULT_MAX_DELAY_MS } }

/-- Modelled from the spec and the `environment` documentation of
`src/types/index.ts` lines 42-47: the base address each environment is
documented to select (production is the default; staging and
development share the alternate address). -/
def environmentBaseUrl : ChaindocEnvironment → String
  | ChaindocEnvironment.production => "https://api.chaindoc.io"
  | ChaindocEnvironment.staging => "https://api-demo.chaindoc.io"
  | ChaindocEnvironment.development => "https://api-demo.chaindoc.io"

/-- A `FormData` instance: `createdAt` is the index of the construction
event (one `new FormData()` per loop iteration), `entries` the appended
`(fieldName, blob)` pairs; blobs are opaque and named by numbers. -/
structure FormData where
  createdAt : Nat
  entries : List (String × Nat)
deriving DecidableEq

/-- Lines 260-263 of client.ts: a fresh `FormData` with every file
appended under `fieldName`. -/
def buildFormData (fieldName : String) (files : List Nat) (counter : Nat) : FormData :=
  { createdAt := counter, entries := files.map (fun f => (fieldName, f)) }

/-- The headers and body handed to `fetch` by one upload attempt. -/
structure SentUpload where
  headers : List (String × String)
  body : FormData
deriving DecidableEq

/-- The request sent by the upload loop at iteration `a` (client.ts
lines 260-276): a form freshly built at this iteration, and only the
authorization header. -/
def mkSentUpload (secretKey fieldName : String) (files : List Nat) (a : Nat) : SentUpload :=
  { headers := [("Authorization", "Bearer " ++ secretKey)]
    body := buildFormData fieldName files a }

/-- Lines 280-316 of client.ts: processing of a `fetch` response on the
multipart upload path (identical to the JSON path up to the generic
message). -/
def handleUploadResponse (r : HttpResponse) : AttemptResult :=
  if r.status == 204 || r.contentLength == some "0" then
    AttemptResult.success none
  else
    let data := decodedData r
    if !responseOk r.status then
      AttemptResult.failed
        { message := errorMessageOf data ("Upload failed with status " ++ toString r.status)
          statusCode := some r.status
          response := data
          isRetryable := isRetryableError none (some r.status) }
    else
      AttemptResult.success data

/-- Lines 317-348 of client.ts: the `catch` block of the upload path. -/
def handleUploadThrown (e : TransportError) : AttemptResult :=
  match e with
  | TransportError.jsError name msg =>
      AttemptResult.failed
        { message := if name == "AbortError" then "Upload timeout" else msg
          statusCode := none
          response := none
          isRetryable := isRetryableError (some e) none }
  | TransportError.nonError =>
      AttemptResult.failed
        { message := "Unknown error occurred"
          statusCode := none
          response := none
          isRetryable := false }

/-- The resolution of one attempt of `HttpClient.uploadFiles` given the
outcome of its `fetch` call. -/
def classifyUploadFetch : FetchResult → AttemptResult
  | FetchResult.response r => handleUploadResponse r
  | FetchResult.thrown e => handleUploadThrown e

/-- The observable outcome of one `HttpClient.uploadFiles` call: the
attempt count, the request (headers and form body) sent on each
attempt in order, the slept delays, and the result. -/
structure UploadRunResult where
  attempts : Nat
  sent : List SentUpload
  sleeps : List ℤ
  outcome : Except ChaindocError (Option JsonValue)

/-- The `for` loop of `HttpClient.uploadFiles` (client.ts lines
259-352), as a recursion on the iterations left.  Each iteration builds
a fresh `FormData` (line 260) before issuing its `fetch`. -/
def uploadFrom (secretKey fieldName : String) (files : List Nat)
    (transport : Nat → FetchResult) (rand : Nat → ℚ)
    (baseDelayMs maxDelayMs : ℚ) (maxAttempts : Nat) :
    Nat → Nat → List SentUpload → List ℤ → Option ChaindocError → UploadRunResult
  | attempt, 0, sent, sleeps, lastError =>
      { attempts := attempt
        sent := sent.reverse
        sleeps := sleeps.reverse
        outcome := Except.error (lastError.getD
          { message := "Upload failed after retries", statusCode := none
            response := none, isRetryable := false }) }
  | attempt, remaining + 1, sent, sleeps, _lastError =>
      match classifyUploadFetch (transport attempt) with
      | AttemptResult.success v =>
          { attempts := attempt + 1
            sent := (mkSentUpload secretKey fieldName files attempt :: sent).reverse
            sleeps := sleeps.reverse
            outcome := Except.ok v }
      | AttemptResult.failed e =>
          if e.isRetryable && decide (attempt + 1 < maxAttempts) then
            uploadFrom secretKey fieldName files transport rand baseDelayMs maxDelayMs
              maxAttempts (attempt + 1) remaining
              (mkSentUpload secretKey fieldName files attempt :: sent)
              (getRetryDelay baseDelayMs maxDelayMs attempt (rand attempt) :: sleeps)
              (some e)
          else
            { attempts := attempt + 1
              sent := (mkSentUpload secretKey fieldName files attempt :: sent).reverse
              sleeps := sleeps.reverse
              outcome := Except.error e }

/-- Method `HttpClient.uploadFiles` (client.ts lines 251-353).  There is no
`noRetry` option on this path: the budget is always
`maxRetries + 1`. -/
def uploadFilesRun (client : HttpClient) (fieldName : String) (files : List Nat)
    (transport : Nat → FetchResult) (rand : Nat → ℚ) : UploadRunResult :=
  let maxAttempts := client.retryConfig.maxRetries + 1
  uploadFrom client.secretKey fieldName files transport rand
    client.retryConfig.baseDelayMs client.retryConfig.maxDelayMs
    maxAttempts 0 maxAttempts [] [] none

/-!
Sample values used by the witness and counterexample theorems below.
-/

/-- A plain 503 response with no informative headers and no parsed body. -/
def resp503 : HttpResponse :=
  { status := 503, contentLength := none, contentType := none, jsonBody := none }

/-- The error the request path derives from `resp503`. -/
def err503 : ChaindocError :=
  { message := "Request failed with status 503", statusCode := some 503
    response := none, isRetryable := true }

/-- A transport that returns a plain 503 on every attempt. -/
def transport503 : Nat → FetchResult := fun _ => FetchResult.response resp503

/-- A random source that always draws 0. -/
def rand0 : Nat → ℚ := fun _ => 0

/-- The error the request path derives from the abort signal. -/
def timeoutError : ChaindocError :=
  { message := "Request timeout", statusCode := none, response := none, isRetryable := true }

/-- A transport whose every attempt throws the abort signal. -/
def abortTransport : Nat → FetchResult :=
  fun _ => FetchResult.thrown (TransportError.jsError "AbortError" "This operation was aborted")

/-- A 503 whose content-length header is the string "0". -/
def resp503emptyBody : HttpResponse :=
  { status := 503, contentLength := some "0", contentType := some "application/json"
    jsonBody := some (JsonValue.obj [("message", JsonValue.str "Service Unavailable")]) }

/-- A plain 500 response. -/
def resp500plain : HttpResponse :=
  { status := 500, contentLength := none, contentType := none, jsonBody := none }

/-- A 429 response with a JSON body carrying a message field. -/
def resp429json : HttpResponse :=
  { status := 429, contentLength := none, contentType := some "application/json"
    jsonBody := some (JsonValue.obj [("message", JsonValue.str "slow down")]) }

/-- A configuration selecting the staging environment. -/
def stagingConfig : ChaindocConfig :=
  { secretKey := some "sk_test", environment := some ChaindocEnvironment.staging
    timeout := none, headers := [], retry := none }

/-!
Helper lemmas about the two retry loops.
-/

lemma runFrom_succ (transport : Nat → FetchResult) (rand : Nat → ℚ) (b m : ℚ)
    (maxAttempts attempt remaining : Nat) (sleeps : List ℤ)
    (lastError : Option ChaindocError) :
    runFrom transport rand b m maxAttempts attempt (remaining + 1) sleeps lastError =
      match classifyFetch (transport attempt) with
      | AttemptResult.success v =>
          { attempts := attempt + 1, sleeps := sleeps.reverse, outcome := Except.ok v }
      | AttemptResult.failed e =>
          if e.isRetryable && decide (attempt + 1 < maxAttempts) then
            runFrom transport rand b m maxAttempts (attempt + 1) remaining
              (getRetryDelay b m attempt (rand attempt) :: sleeps) (some e)
          else
            { attempts := attempt + 1, sleeps := sleeps.reverse,
              outcome := Except.error e } := rfl

lemma runFrom_exhaust (transport : Nat → FetchResult) (rand : Nat → ℚ)
    (b m : ℚ) (err : Nat → ChaindocError)
    (hc : ∀ a, classifyFetch (transport a) = AttemptResult.failed (err a))
    (hr : ∀ a, (err a).isRetryable = true) :
    ∀ remaining attempt sleeps lastError,
      (runFrom transport rand b m (attempt + remaining + 1) attempt (remaining + 1)
          sleeps lastError).attempts = attempt + remaining + 1 ∧
      (runFrom transport rand b m (attempt + remaining + 1) attempt (remaining + 1)
          sleeps lastError).outcome = Except.error (err (attempt + remaining)) := by
  intro remaining
  induction remaining with
  | zero =>
    intro attempt sleeps lastError
    rw [runFrom_succ, hc attempt]
    have hfalse : ¬ (attempt + 1 < attempt + 0 + 1) := by omega
    simp [hfalse]
  | succ n ih =>
    intro attempt sleeps lastError
    rw [runFrom_succ, hc attempt]
    have htrue : attempt + 1 < attempt + (n + 1) + 1 := by omega
    simp only [hr attempt, htrue, decide_True, Bool.true_and, if_true]
    have hmax : attempt + (n + 1) + 1 = (attempt + 1) + n + 1 := by omega
    rw [hmax]
    have h := ih (attempt + 1)
      (getRetryDelay b m attempt (rand attempt) :: sleeps) (some (err attempt))
    have hidx : attempt + (n + 1) = attempt + 1 + n := by omega
    rw [hidx]
    exact ⟨h.1, h.2⟩

lemma isRetryableError_status (s : Nat) :
    isRetryableError none (some s) = true ↔ (500 ≤ s ∨ s = 429) := by
  unfold isRetryableError
  by_cases h5 : 500 ≤ s
  · have hs0 : s ≠ 0 := by omega
    simp [h5, hs0]
  · by_cases h4 : s = 429
    · simp [h4]
    · simp [h5, h4]

lemma uploadFrom_succ (secretKey fieldName : String) (files : List Nat)
    (transport : Nat → FetchResult) (rand : Nat → ℚ) (b m : ℚ)
    (maxAttempts attempt remaining : Nat) (sent : List SentUpload) (sleeps : List ℤ)
    (lastError : Option ChaindocError) :
    uploadFrom secretKey fieldName files transport rand b m maxAttempts
        attempt (remaining + 1) sent sleeps lastError =
      match classifyUploadFetch (transport attempt) with
      | AttemptResult.success v =>
          { attempts := attempt + 1
            sent := (mkSentUpload secretKey fieldName files attempt :: sent).reverse
            sleeps := sleeps.reverse
            outcome := Except.ok v }
      | AttemptResult.failed e =>
          if e.isRetryable && decide (attempt + 1 < maxAttempts) then
            uploadFrom secretKey fieldName files transport rand b m maxAttempts
              (attempt + 1) remaining
              (mkSentUpload secretKey fieldName files attempt :: sent)
              (getRetryDelay b m attempt (rand attempt) :: sleeps) (some e)
          else
            { attempts := attempt + 1
              sent := (mkSentUpload secretKey fieldName files attempt :: sent).reverse
              sleeps := sleeps.reverse
              outcome := Except.error e } := rfl

lemma uploadFrom_sent (secretKey fieldName : String) (files : List Nat)
    (transport : Nat → FetchResult) (rand : Nat → ℚ) (b m : ℚ) (maxA : Nat) :
    ∀ remaining attempt sent sleeps lastError,
      (uploadFrom secretKey fieldName files transport rand b m maxA
          attempt remaining sent sleeps lastError).sent
        = sent.reverse ++
            (List.range' attempt
              ((uploadFrom secretKey fieldName files transport rand b m maxA
                  attempt remaining sent sleeps lastError).attempts - attempt)).map
              (mkSentUpload secretKey fieldName files) ∧
      attempt ≤ (uploadFrom secretKey fieldName files transport rand b m maxA
          attempt remaining sent sleeps lastError).attempts := by
  intro remaining
  induction remaining with
  | zero =>
    intro attempt sent sleeps lastError
    refine ⟨?_, Nat.le_refl _⟩
    show sent.reverse = sent.reverse ++
      (List.range' attempt (attempt - attempt)).map (mkSentUpload secretKey fieldName files)
    simp
  | succ n ih =>
    intro attempt sent sleeps lastError
    rw [uploadFrom_succ]
    cases hcl : classifyUploadFetch (transport attempt) with
    | success v =>
      refine ⟨?_, Nat.le_succ attempt⟩
      show (mkSentUpload secretKey fieldName files attempt :: sent).reverse = sent.reverse ++
        (List.range' attempt (attempt + 1 - attempt)).map (mkSentUpload secretKey fieldName files)
      simp [Nat.add_sub_cancel_left, List.range'_one]
    | failed e =>
      by_cases hif : (e.isRetryable && decide (attempt + 1 < maxA)) = true
      · simp only [hif, if_true]
        obtain ⟨ihs, iha⟩ := ih (attempt + 1)
          (mkSentUpload secretKey fieldName files attempt :: sent)
          (getRetryDelay b m attempt (rand attempt) :: sleeps) (some e)
        refine ⟨?_, by omega⟩
        rw [ihs]
        have hsub : (uploadFrom secretKey fieldName files transport rand b m maxA
            (attempt + 1) n (mkSentUpload secretKey fieldName files attempt :: sent)
            (getRetryDelay b m attempt (rand attempt) :: sleeps) (some e)).attempts - attempt
            = ((uploadFrom secretKey fieldName files transport rand b m maxA
                (attempt + 1) n (mkSentUpload secretKey fieldName files attempt :: sent)
                (getRetryDelay b m attempt (rand attempt) :: sleeps) (some e)).attempts
              - (attempt + 1)) + 1 := by omega
        rw [hsub, List.range'_succ]
        simp [List.reverse_cons, List.append_assoc]
      · simp only [hif, Bool.false_eq_true, if_false]
        refine ⟨?_, Nat.le_succ attempt⟩
        show (mkSentUpload secretKey fieldName files attempt :: sent).reverse = sent.reverse ++
          (List.range' attempt (attempt + 1 - attempt)).map (mkSentUpload secretKey fieldName files)
        simp [Nat.add_sub_cancel_left, List.range'_one]

lemma uploadFrom_attempts_le (secretKey fieldName : String) (files : List Nat)
    (transport : Nat → FetchResult) (rand : Nat → ℚ) (b m : ℚ) (maxA : Nat) :
    ∀ remaining attempt sent sleeps lastError,
      (uploadFrom secretKey fieldName files transport rand b m maxA
          attempt remaining sent sleeps lastError).attempts ≤ attempt + remaining := by
  intro remaining
  induction remaining with
  | zero =>
    intro attempt sent sleeps lastError
    exact Nat.le_refl _
  | succ n ih =>
    intro attempt sent sleeps lastError
    rw [uploadFrom_succ]
    cases hcl : classifyUploadFetch (transport attempt) with
    | success v =>
      show attempt + 1 ≤ attempt + (n + 1)
      omega
    | failed e =>
      by_cases hif : (e.isRetryable && decide (attempt + 1 < maxA)) = true
      · simp only [hif, if_true]
        have := ih (attempt + 1)
          (mkSentUpload secretKey fieldName files attempt :: sent)
          (getRetryDelay b m attempt (rand attempt) :: sleeps) (some e)
        omega
      · simp only [hif, Bool.false_eq_true, if_false]
        show attempt + 1 ≤ attempt + (n + 1)
        omega

lemma uploadFrom_exhaust (secretKey fieldName : String) (files : List Nat)
    (transport : Nat → FetchResult) (rand : Nat → ℚ) (b m : ℚ)
    (errs : Nat → ChaindocError)
    (hc : ∀ a, classifyUploadFetch (transport a) = AttemptResult.failed (errs a))
    (hr : ∀ a, (errs a).isRetryable = true) :
    ∀ remaining attempt sent sleeps lastError,
      (uploadFrom secretKey fieldName files transport rand b m (attempt + remaining + 1)
          attempt (remaining + 1) sent sleeps lastError).attempts
        = attempt + remaining + 1 := by
  intro remaining
  induction remaining with
  | zero =>
    intro attempt sent sleeps lastError
    rw [uploadFrom_succ, hc attempt]
    have hfalse : ¬ (attempt + 1 < attempt + 0 + 1) := by omega
    simp [hfalse]
  | succ n ih =>
    intro attempt sent sleeps lastError
    rw [uploadFrom_succ, hc attempt]
    have htrue : attempt + 1 < attempt + (n + 1) + 1 := by omega
    simp only [hr attempt, htrue, decide_True, Bool.true_and, if_true]
    have hmax : attempt + (n + 1) + 1 = (attempt + 1) + n + 1 := by omega
    rw [hmax]
    have h := ih (attempt + 1)
      (mkSentUpload secretKey fieldName files attempt :: sent)
      (getRetryDelay b m attempt (rand attempt) :: sleeps) (some (errs attempt))
    omega

/-!
The claim theorems.
-/

/-- C1: with retry enabled and every attempt yielding a retryable failure
(such as a plain 503), the call performs exactly maxRetries + 1 attempts and
then raises the error constructed from the final attempt — no separate
"gave up" error kind. -/
theorem request_retryable_exhaustion (r : Nat) (b m : ℚ)
    (transport : Nat → FetchResult) (rand : Nat → ℚ) (err : Nat → ChaindocError)
    (hc : ∀ a, classifyFetch (transport a) = AttemptResult.failed (err a))
    (hr : ∀ a, (err a).isRetryable = true) :
    (requestRun ⟨r, b, m⟩ false transport rand).attempts = r + 1 ∧
    (requestRun ⟨r, b, m⟩ false transport rand).outcome = Except.error (err r) ∧
    (err r).isRetryable = true := by
  have h := runFrom_exhaust transport rand b m err hc hr r 0 [] none
  simp only [Nat.zero_add] at h
  exact ⟨h.1, h.2, hr r⟩

theorem request_retryable_exhaustion_503 :
    (requestRun ⟨2, 1000, 10000⟩ false transport503 rand0).attempts = 3 ∧
    (requestRun ⟨2, 1000, 10000⟩ false transport503 rand0).outcome = Except.error err503 ∧
    err503.isRetryable = true :=
  request_retryable_exhaustion 2 1000 10000 transport503 rand0 (fun _ => err503)
    (fun _ => rfl) (fun _ => rfl)

/-- C5: with noRetry, exactly one attempt, no sleep, and any failure of the
single attempt is raised immediately. -/
theorem requestRun_noRetry_once (retry : RetryConfig) (transport : Nat → FetchResult)
    (rand : Nat → ℚ) :
    (requestRun retry true transport rand).attempts = 1 ∧
    (requestRun retry true transport rand).sleeps = [] ∧
    ∀ e, classifyFetch (transport 0) = AttemptResult.failed e →
      (requestRun retry true transport rand).outcome = Except.error e := by
  have h0 : requestRun retry true transport rand =
      runFrom transport rand retry.baseDelayMs retry.maxDelayMs 1 0 1 [] none := rfl
  rw [h0, runFrom_succ]
  cases hcl : classifyFetch (transport 0) with
  | success v =>
    dsimp only
    refine ⟨rfl, by simp, ?_⟩
    intro e he
    cases he
  | failed e =>
    have hcond : (e.isRetryable && decide (0 + 1 < 1)) = false := by simp
    simp only [hcond, Bool.false_eq_true, if_false]
    refine ⟨by simp, by simp, ?_⟩
    intro e' he'
    cases he'
    rfl

/-- C2 amended: for any nonnegative delays and any random draw in the unit
interval, the returned delay is within half a millisecond of the jittered
interval around the clamped exponential delay. -/
theorem getRetryDelay_jitter_bounds (b m rand : ℚ) (a : Nat)
    (hb : 0 ≤ b) (hm : 0 ≤ m) (h0 : 0 ≤ rand) (h1 : rand ≤ 1) :
    (3 / 4) * min (b * 2 ^ a) m - 1 / 2 ≤ (getRetryDelay b m a rand : ℚ) ∧
    (getRetryDelay b m a rand : ℚ) ≤ (5 / 4) * min (b * 2 ^ a) m + 1 / 2 := by
  have hdnn : 0 ≤ min (b * 2 ^ a) m := le_min (by positivity) hm
  set d := min (b * 2 ^ a) m with hd
  have hval : getRetryDelay b m a rand = jsRound (d + d * (1 / 4) * (rand * 2 - 1)) := rfl
  set x := d + d * (1 / 4) * (rand * 2 - 1) with hx
  have hxlow : (3 / 4) * d ≤ x := by nlinarith [mul_nonneg hdnn h0]
  have hxhigh : x ≤ (5 / 4) * d := by nlinarith [mul_nonneg hdnn (sub_nonneg.mpr h1)]
  rw [hval]
  unfold jsRound
  constructor
  · have hfl : x + 1 / 2 - 1 < ((⌊x + 1 / 2⌋ : ℤ) : ℚ) := Int.sub_one_lt_floor _
    linarith
  · have hfl : ((⌊x + 1 / 2⌋ : ℤ) : ℚ) ≤ x + 1 / 2 := Int.floor_le _
    linarith

theorem getRetryDelay_jitter_bounds_at_1000 :
    (3 / 4) * min ((1000 : ℚ) * 2 ^ 0) 10000 - 1 / 2 ≤ (getRetryDelay 1000 10000 0 (1 / 2) : ℚ) ∧
    (getRetryDelay 1000 10000 0 (1 / 2) : ℚ) ≤ (5 / 4) * min ((1000 : ℚ) * 2 ^ 0) 10000 + 1 / 2 :=
  getRetryDelay_jitter_bounds 1000 10000 (1 / 2) 0 (by norm_num) (by norm_num)
    (by norm_num) (by norm_num)

/-- C2 counterexample: with baseDelay 3, maxDelay 10000, attempt 0 and random
draw 0 the code returns round(3 - 0.75) = 2 ms, strictly below the claimed
lower bound 0.75 * min(3 * 2 ^ 0, 10000) = 2.25 ms. -/
theorem getRetryDelay_below_claimed_bound :
    getRetryDelay 3 10000 0 0 = 2 ∧
    ¬ ((3 / 4) * min ((3 : ℚ) * 2 ^ 0) 10000 ≤ (getRetryDelay 3 10000 0 0 : ℚ)) := by
  have h2 : getRetryDelay 3 10000 0 0 = 2 := by
    norm_num [getRetryDelay, jsRound]
  refine ⟨h2, ?_⟩
  rw [h2]
  norm_num [min_def]

/-- C3 amended: a non-2xx response not short-circuited by the empty-body
check yields the error built from the status, the decoded body and the
status-derived retryability, which holds exactly for 5xx and 429. -/
theorem handleResponse_non2xx (r : HttpResponse)
    (h204 : r.status ≠ 204) (hcl : r.contentLength ≠ some "0")
    (hok : responseOk r.status = false) :
    handleResponse r = AttemptResult.failed
      { message := errorMessageOf (decodedData r)
          ("Request failed with status " ++ toString r.status)
        statusCode := some r.status
        response := decodedData r
        isRetryable := isRetryableError none (some r.status) } ∧
    (isRetryableError none (some r.status) = true ↔ (500 ≤ r.status ∨ r.status = 429)) := by
  refine ⟨?_, isRetryableError_status r.status⟩
  unfold handleResponse
  have hc1 : (r.status == 204 || r.contentLength == some "0") = false := by
    simp [h204, hcl]
  simp [hc1, hok]

theorem handleResponse_non2xx_429 :
    handleResponse resp429json = AttemptResult.failed
      { message := errorMessageOf (decodedData resp429json)
          ("Request failed with status " ++ toString resp429json.status)
        statusCode := some resp429json.status
        response := decodedData resp429json
        isRetryable := isRetryableError none (some resp429json.status) } ∧
    (isRetryableError none (some resp429json.status) = true ↔
      (500 ≤ resp429json.status ∨ resp429json.status = 429)) :=
  handleResponse_non2xx resp429json (by decide) (by decide) rfl

/-- C3 counterexample: a 503 whose content-length header is "0" raises no
error at all (it is returned as the no-value success), and the generic
message is capitalized, "Request failed with status N". -/
theorem handleResponse_non2xx_counterexample :
    handleResponse resp503emptyBody = AttemptResult.success none ∧
    handleResponse resp500plain = AttemptResult.failed
      { message := "Request failed with status 500", statusCode := some 500
        response := none, isRetryable := true } ∧
    "Request failed with status 500" ≠ "request failed with status 500" :=
  ⟨rfl, rfl, by decide⟩

/-- C4 amended: an always-aborting transport with maxRetries 1 yields exactly
2 attempts and the error "Request timeout" with no status and retryable set;
in general a thrown JS error keeps its message unless it is the abort signal,
and is retryable exactly when it is the abort signal or its message contains
one of the transient network codes. -/
theorem request_abort_and_transport_classification :
    (∀ (b m : ℚ) (rand : Nat → ℚ) (msgs : Nat → String),
      (requestRun ⟨1, b, m⟩ false
          (fun a => FetchResult.thrown (TransportError.jsError "AbortError" (msgs a)))
          rand).attempts = 2 ∧
      (requestRun ⟨1, b, m⟩ false
          (fun a => FetchResult.thrown (TransportError.jsError "AbortError" (msgs a)))
          rand).outcome = Except.error timeoutError) ∧
    (∀ name msg,
      handleThrown (TransportError.jsError name msg) = AttemptResult.failed
        { message := if name == "AbortError" then "Request timeout" else msg
          statusCode := none
          response := none
          isRetryable := isRetryableError (some (TransportError.jsError name msg)) none } ∧
      (isRetryableError (some (TransportError.jsError name msg)) none = true ↔
        (name = "AbortError" ∨ ∃ c ∈ networkErrors, containsSubstr msg c = true))) := by
  constructor
  · intro b m rand msgs
    have hc : ∀ a, classifyFetch
        ((fun a => FetchResult.thrown (TransportError.jsError "AbortError" (msgs a))) a)
          = AttemptResult.failed timeoutError := by
      intro a
      show handleThrown (TransportError.jsError "AbortError" (msgs a)) = _
      simp [handleThrown, timeoutError, isRetryableError]
    have h := runFrom_exhaust _ rand b m (fun _ => timeoutError) hc (fun _ => rfl) 1 0 [] none
    simp only [Nat.zero_add] at h
    exact ⟨h.1, h.2⟩
  · intro name msg
    refine ⟨rfl, ?_⟩
    have hred : isRetryableError (some (TransportError.jsError name msg)) none =
        (networkErrors.any (fun e => containsSubstr msg e) || name == "AbortError") := rfl
    rw [hred]
    constructor
    · intro h
      rcases Bool.or_eq_true _ _ |>.mp h with h' | h'
      · right
        exact List.any_eq_true.mp h'
      · left
        exact beq_iff_eq.mp h'
    · intro h
      rcases h with h' | h'
      · exact Bool.or_eq_true _ _ |>.mpr (Or.inr (beq_iff_eq.mpr h'))
      · exact Bool.or_eq_true _ _ |>.mpr (Or.inl (List.any_eq_true.mpr h'))

/-- C4 counterexample: the abort scenario raises message "Request timeout",
not "request timeout". -/
theorem request_abort_message_capitalized :
    (requestRun ⟨1, 1000, 10000⟩ false abortTransport rand0).attempts = 2 ∧
    (requestRun ⟨1, 1000, 10000⟩ false abortTransport rand0).outcome =
      Except.error { message := "Request timeout", statusCode := none
                     response := none, isRetryable := true } ∧
    "Request timeout" ≠ "request timeout" :=
  ⟨rfl, rfl, by decide⟩

/-- C6: on a successful (2xx) response, the empty-body check, a non-JSON
content type, and a failed JSON parse each yield the no-value success, and
the empty-body check does so whatever the decode machinery would see. -/
theorem handleResponse_success_paths (r : HttpResponse)
    (hok : responseOk r.status = true) :
    ((r.status = 204 ∨ r.contentLength = some "0") →
      ∀ ct j, handleResponse { r with contentType := ct, jsonBody := j } =
        AttemptResult.success none) ∧
    (isJsonContentType r.contentType = false →
      handleResponse r = AttemptResult.success none) ∧
    (r.jsonBody = none → handleResponse r = AttemptResult.success none) := by
  refine ⟨?_, ?_, ?_⟩
  · rintro (h | h) ct j <;> simp [handleResponse, h]
  · intro hjson
    by_cases hc : (r.status == 204 || r.contentLength == some "0") = true
    · simp [handleResponse, hc]
    · simp only [Bool.not_eq_true] at hc
      simp [handleResponse, hc, decodedData, hjson, hok]
  · intro hbody
    by_cases hc : (r.status == 204 || r.contentLength == some "0") = true
    · simp [handleResponse, hc]
    · simp only [Bool.not_eq_true] at hc
      simp [handleResponse, hc, decodedData, hbody, hok]

theorem handleResponse_success_paths_at :
    handleResponse ⟨204, none, some "application/json", some (JsonValue.str "x")⟩ =
      AttemptResult.success none := by
  have h := handleResponse_success_paths ⟨204, none, none, none⟩ rfl
  exact h.1 (Or.inl rfl) (some "application/json") (some (JsonValue.str "x"))

/-- C7: construction succeeds exactly when a secret key is supplied and it
starts with "sk_"; nothing else about the key is checked. -/
theorem mkHttpClient_ok_iff (config : ChaindocConfig) :
    (∃ c, mkHttpClient config = Except.ok c) ↔
      (∃ s, config.secretKey = some s ∧ strStartsWith s "sk_" = true) := by
  obtain ⟨sk, env, tmo, hdrs, rty⟩ := config
  rcases sk with _ | s
  · simp [mkHttpClient, strTruthy]
  · by_cases hp : strStartsWith s "sk_" = true
    · have hs : s ≠ "" := by
        intro h
        subst h
        exact absurd hp (by decide)
      simp [mkHttpClient, strTruthy, hs, hp]
    · by_cases hs : s = ""
      · subst hs
        simp [mkHttpClient, strTruthy, hp, show strStartsWith "" "sk_" = false from by decide]
      · simp [mkHttpClient, strTruthy, hs, hp]

/-- C9: the configured staging environment is ignored by the constructor
(client.ts reads the nonexistent `config.baseUrl`), so the base address
stays the production default instead of the documented alternate. -/
theorem mkHttpClient_ignores_environment :
    (mkHttpClient stagingConfig).map (fun c => c.baseUrl) =
      Except.ok "https://api.chaindoc.io" ∧
    environmentBaseUrl ChaindocEnvironment.staging = "https://api-demo.chaindoc.io" ∧
    "https://api.chaindoc.io" ≠ "https://api-demo.chaindoc.io" :=
  ⟨rfl, rfl, by decide⟩

/-- C10: the fetch body is attached exactly for truthy body arguments; the
falsy values 0, false, "" and null are sent with an absent body. -/
theorem requestSentBody_truthy :
    (∀ b : Option JsonValue, (requestSentBody b).isSome = true ↔ jsTruthyOpt b = true) ∧
    requestSentBody (some (JsonValue.num 0)) = none ∧
    requestSentBody (some (JsonValue.bool false)) = none ∧
    requestSentBody (some (JsonValue.str "")) = none ∧
    requestSentBody (some JsonValue.null) = none ∧
    requestSentBody none = none ∧
    (∀ v : JsonValue, jsTruthy v = true → requestSentBody (some v) = some v) := by
  refine ⟨?_, rfl, rfl, rfl, rfl, rfl, ?_⟩
  · intro b
    cases b with
    | none => simp [requestSentBody, jsTruthyOpt]
    | some v =>
      by_cases h : jsTruthy v = true
      · simp [requestSentBody, jsTruthyOpt, h]
      · simp only [Bool.not_eq_true] at h
        simp [requestSentBody, jsTruthyOpt, h]
  · intro v hv
    simp [requestSentBody, jsTruthyOpt, hv]

/-- C8: every attempt of an upload sends only the authorization header and a
multipart form freshly built at that attempt from the given blob list (the
construction indices run 0, 1, ... over the attempts, so no form instance is
reused); the attempt budget is always maxRetries + 1, and it is fully used
when every attempt fails retryably. -/
theorem uploadFiles_fresh_form_and_budget (client : HttpClient) (fieldName : String)
    (files : List Nat) (transport : Nat → FetchResult) (rand : Nat → ℚ)
    (errs : Nat → ChaindocError) :
    ((uploadFilesRun client fieldName files transport rand).sent =
      (List.range (uploadFilesRun client fieldName files transport rand).attempts).map
        (mkSentUpload client.secretKey fieldName files)) ∧
    (∀ a, mkSentUpload client.secretKey fieldName files a
        = { headers := [("Authorization", "Bearer " ++ client.secretKey)]
            body := { createdAt := a, entries := files.map (fun f => (fieldName, f)) } }) ∧
    (1 ≤ (uploadFilesRun client fieldName files transport rand).attempts ∧
      (uploadFilesRun client fieldName files transport rand).attempts ≤
        client.retryConfig.maxRetries + 1) ∧
    ((∀ a, classifyUploadFetch (transport a) = AttemptResult.failed (errs a)) →
      (∀ a, (errs a).isRetryable = true) →
      (uploadFilesRun client fieldName files transport rand).attempts =
        client.retryConfig.maxRetries + 1) := by
  have hrun : uploadFilesRun client fieldName files transport rand =
      uploadFrom client.secretKey fieldName files transport rand
        client.retryConfig.baseDelayMs client.retryConfig.maxDelayMs
        (client.retryConfig.maxRetries + 1) 0 (client.retryConfig.maxRetries + 1)
        [] [] none := rfl
  refine ⟨?_, fun a => rfl, ⟨?_, ?_⟩, ?_⟩
  · rw [hrun]
    have h := uploadFrom_sent client.secretKey fieldName files transport rand
      client.retryConfig.baseDelayMs client.retryConfig.maxDelayMs
      (client.retryConfig.maxRetries + 1) (client.retryConfig.maxRetries + 1) 0 [] [] none
    rw [h.1]
    simp [List.range_eq_range']
  · rw [hrun, uploadFrom_succ]
    cases hcl : classifyUploadFetch (transport 0) with
    | success v => exact Nat.le_refl 1
    | failed e =>
      by_cases hif : (e.isRetryable && decide (0 + 1 < client.retryConfig.maxRetries + 1)) = true
      · simp only [hif, if_true]
        have h := uploadFrom_sent client.secretKey fieldName files transport rand
          client.retryConfig.baseDelayMs client.retryConfig.maxDelayMs
          (client.retryConfig.maxRetries + 1) client.retryConfig.maxRetries 1
          [mkSentUpload client.secretKey fieldName files 0]
          [getRetryDelay client.retryConfig.baseDelayMs client.retryConfig.maxDelayMs 0 (rand 0)]
          (some e)
        exact h.2
      · simp only [hif, Bool.false_eq_true, if_false]
        exact Nat.le_refl 1
  · rw [hrun]
    have h := uploadFrom_attempts_le client.secretKey fieldName files transport rand
      client.retryConfig.baseDelayMs client.retryConfig.maxDelayMs
      (client.retryConfig.maxRetries + 1) (client.retryConfig.maxRetries + 1) 0 [] [] none
    omega
  · intro hc hr
    rw [hrun]
    have h := uploadFrom_exhaust client.secretKey fieldName files transport rand
      client.retryConfig.baseDelayMs client.retryConfig.maxDelayMs errs hc hr
      client.retryConfig.maxRetries 0 [] [] none
    simpa using h

end ChaindocSdk
